import Mathlib

/-!
Verification of the DeltaRPM reader in `src/drpm_read.c` against its
natural-language specification.

The core under study is `readdelta_rest` (drpm_read.c, lines 82-361): the
parser of the compressed region shared by standard and rpm-only deltas,
together with the projection `deltarpm_to_drpm` (lines 484-557).

Embedding conventions:
* The decompression stream collaborator is modelled as the list of bytes it
  yields.  Each `decompstrm_read*` call consumes a prefix of that list; per
  the collaborator contract a short read is a format error.  The I/O error of
  a failing underlying syscall is not modelled (the stream is a pure value).
* Heap allocation always succeeds in the model, so the MEMORY paths of the C
  code do not arise.
* C `uint32_t` / `uint64_t` arithmetic is `Nat` arithmetic reduced modulo
  `U32` / `U64` exactly where the C value can exceed the machine width.
* `deltarpm_decode_comp` is a collaborator (not among the sources); the
  parser is parameterised by it (`dc : Nat → Option (Nat × Nat)` returning
  algorithm and level, `none` for an unrecognized descriptor).
* `decompstrm_init` detects the compression algorithm and stores it in
  `delta->comp` (line 98); the detected value is the `comp` parameter.
-/

set_option maxRecDepth 100000

/-- Error kinds of drpm (drpm.h); `ioerr` stands for the C `DRPM_ERR_IO`,
the other names drop the `DRPM_ERR_` prefixes.  `DRPM_ERR_OK` is represented
by `Except.ok`. -/
inductive Err where
  | ioerr
  | memory
  | format
  | overflow
  | prog
  deriving DecidableEq

/-- Delta types (drpm.h): DRPM_TYPE_STANDARD / DRPM_TYPE_RPMONLY. -/
inductive DrpmType where
  | STANDARD
  | RPMONLY
  deriving DecidableEq

/-- Modulus of C `uint32_t` arithmetic. -/
def U32 : Nat := 4294967296

/-- Modulus of C `uint64_t` arithmetic. -/
def U64 : Nat := 18446744073709551616

/-- MD5_DIGEST_LENGTH from openssl. -/
def MD5_DIGEST_LENGTH : Nat := 16

/-- Modelled from the spec: `RPM_LEADSIG_MIN_LEN` is a constant supplied by
the environment (drpm_private.h is not among the sources).  The spec only
requires `tgt_leadsig_len` to be at least this bound; we use the 96-byte RPM
lead plus a 16-byte signature header intro.  No claim depends on the value. -/
def RPM_LEADSIG_MIN_LEN : Nat := 112

/-- SIZE_MAX of the host, modelled for a 64-bit host (design note in the
spec: on a 64-bit host the `int_data_len > SIZE_MAX` check can never fire). -/
def SIZE_MAX : Nat := 18446744073709551615

/-- Big-endian 32-bit word from four bytes (collaborator `parse_be32`;
modelled from the spec: network byte order). -/
def parse_be32 (b0 b1 b2 b3 : Nat) : Nat :=
  b0 % 256 * 16777216 + b1 % 256 * 65536 + b2 % 256 * 256 + b3 % 256

/-- Big-endian 64-bit word from eight bytes (collaborator `parse_be64`). -/
def parse_be64 (b0 b1 b2 b3 b4 b5 b6 b7 : Nat) : Nat :=
  parse_be32 b0 b1 b2 b3 * U32 + parse_be32 b4 b5 b6 b7

/-- `decompstrm_read_be32`: consume four bytes, `none` on a short stream
(which the parser maps to a format error). -/
def readBe32 : List Nat → Option (Nat × List Nat)
  | b0 :: b1 :: b2 :: b3 :: rest => some (parse_be32 b0 b1 b2 b3, rest)
  | _ => none

/-- `decompstrm_read_be64`: consume eight bytes. -/
def readBe64 : List Nat → Option (Nat × List Nat)
  | b0 :: b1 :: b2 :: b3 :: b4 :: b5 :: b6 :: b7 :: rest =>
      some (parse_be64 b0 b1 b2 b3 b4 b5 b6 b7, rest)
  | _ => none

/-- `decompstrm_read stream n buf`: consume exactly `n` bytes. -/
def readBytes (n : Nat) (s : List Nat) : Option (List Nat × List Nat) :=
  if n ≤ s.length then some (s.take n, s.drop n) else none

/-- Sign-magnitude decode applied at lines 205-206 and 267-268:
`if ((x & INT32_MIN) != 0) x = TWOS_COMPLEMENT(x ^ INT32_MIN);`.
The `TWOS_COMPLEMENT` macro lives in drpm_private.h which is not among the
sources; modelled from the spec (§4.2): the result is stored back into the
same 32-bit slot using two's-complement representation, i.e. the slot holds
`(2^32 - magnitude) mod 2^32`. -/
def decodeSignMagnitude (v : Nat) : Nat :=
  if v &&& 2147483648 ≠ 0 then (U32 - (v ^^^ 2147483648)) % U32 else v

/-- The in-memory record `struct deltarpm` (drpm_private.h), restricted to
the fields `readdelta_rest` and `deltarpm_to_drpm` touch.  Blobs are byte
lists; the NUL terminators the C code appends to `src_nevr` are a storage
detail and not represented.  The three tables are flat word lists exactly as
the C stores them (pairs interleaved in even/odd slots). -/
structure Deltarpm where
  version : Nat
  type : DrpmType
  comp : Nat
  src_nevr : List Nat
  sequence_len : Nat
  sequence : List Nat
  tgt_md5 : List Nat
  tgt_size : Nat
  tgt_comp : Nat
  tgt_comp_level : Nat
  tgt_comp_param_len : Nat
  tgt_comp_param : List Nat
  tgt_header_len : Nat
  offadj_elems_count : Nat
  offadj_elems : List Nat
  tgt_leadsig_len : Nat
  tgt_leadsig : List Nat
  payload_fmt_off : Nat
  int_copies_count : Nat
  int_copies : List Nat
  ext_copies_count : Nat
  ext_copies : List Nat
  ext_data_len : Nat
  add_data_len : Nat
  add_data : List Nat
  int_data_len : Nat
  int_data : List Nat
  int_data_as_ptrs : Bool
  deriving DecidableEq

/-- The zeroed record the public entry hands to `read_deltarpm` (the spec's
lifecycle: created empty, type set by the magic dispatch before
`readdelta_rest` runs). -/
def Deltarpm.init (t : DrpmType) : Deltarpm where
  version := 0
  type := t
  comp := 0
  src_nevr := []
  sequence_len := 0
  sequence := []
  tgt_md5 := []
  tgt_size := 0
  tgt_comp := 0
  tgt_comp_level := 0
  tgt_comp_param_len := 0
  tgt_comp_param := []
  tgt_header_len := 0
  offadj_elems_count := 0
  offadj_elems := []
  tgt_leadsig_len := 0
  tgt_leadsig := []
  payload_fmt_off := 0
  int_copies_count := 0
  int_copies := []
  ext_copies_count := 0
  ext_copies := []
  ext_data_len := 0
  add_data_len := 0
  add_data := []
  int_data_len := 0
  int_data := []
  int_data_as_ptrs := false

/-- Read `n` consecutive big-endian 32-bit words from the stream. -/
def readNWords : Nat → List Nat → Option (List Nat × List Nat)
  | 0, s => some ([], s)
  | n + 1, s =>
    match readBe32 s with
    | none => none
    | some (w, s1) =>
      match readNWords n s1 with
      | none => none
      | some (ws, s2) => some (w :: ws, s2)

/-- Interleave two columns into the flat even/odd slot layout of the C
tables (used with equal-length columns). -/
def interleave : List Nat → List Nat → List Nat
  | a :: as, b :: bs => a :: b :: interleave as bs
  | _, _ => []

/-- The two-pass table read of lines 193-207, 246-257 and 259-273:
`size := count * 2` in `uint32_t` arithmetic; the loop `for (i = 0; i < size;
i += 2)` performs `size / 2` consecutive 32-bit reads into the even slots and
the loop `for (j = 1; j < size; j += 2)` then performs `size / 2` reads into
the odd slots (`size` is always even).  `decFst` / `decSnd` are the
per-column decoders: sign-magnitude where the C applies it, identity
elsewhere. -/
def readTable (decFst decSnd : Nat → Nat) (count : Nat) (s : List Nat) :
    Option (List Nat × List Nat) :=
  match readNWords (count * 2 % U32 / 2) s with
  | none => none
  | some (fs, s1) =>
    match readNWords (count * 2 % U32 / 2) s1 with
    | none => none
    | some (gs, s2) => some (interleave (fs.map decFst) (gs.map decSnd), s2)

/-- Lift a collaborator/stream result: `none` becomes DRPM_ERR_FORMAT, the
translation of every `goto cleanup` on a failed read or decode. -/
def req {α β : Type} (m : Option α) (k : α → Except Err β) : Except Err β :=
  match m with
  | none => .error .format
  | some a => k a

/-- Sequencing of parser phases: an error short-circuits (the C `goto
cleanup` discipline), success passes the record and stream on. -/
def pstep (m : Except Err (Deltarpm × List Nat))
    (k : Deltarpm → List Nat → Except Err (Deltarpm × List Nat)) :
    Except Err (Deltarpm × List Nat) :=
  match m with
  | .error e => .error e
  | .ok (d, s) => k d s

/-- `MAGIC_DLT(x)` (drpm_read.c line 35): high 24 bits spell "DLT". -/
def MAGIC_DLT (v : Nat) : Bool := v / 256 == 0x444C54

/-- Line 111, `delta->version = version % 256 - '0'` in `uint32_t`
arithmetic (the subtraction wraps when the low byte is below '0'). -/
def versionOf (v : Nat) : Nat := (v % 256 + (U32 - 48)) % U32

/-- Lines 101-117: version magic, `MAGIC_DLT` check, version decode, and the
rejection of rpm-only deltas with version below 3. -/
def versionPhase (d : Deltarpm) (s : List Nat) : Except Err (Deltarpm × List Nat) :=
  req (readBe32 s) fun (v, s1) =>
    if MAGIC_DLT v then
      let d1 := { d with version := versionOf v }
      if d1.version < 3 ∧ d1.type = .RPMONLY then .error .format
      else .ok (d1, s1)
    else .error .format

/-- Lines 119-132: length-prefixed source NEVR. -/
def srcNevrPhase (d : Deltarpm) (s : List Nat) : Except Err (Deltarpm × List Nat) :=
  req (readBe32 s) fun (len, s1) =>
  req (readBytes len s1) fun (bs, s2) =>
    .ok ({ d with src_nevr := bs }, s2)

/-- Lines 134-154: sequence length (stored before validation, line 136),
the `< MD5_DIGEST_LENGTH` / rpm-only `== MD5_DIGEST_LENGTH` checks of lines
142-146, then the sequence bytes. -/
def sequencePhase (d : Deltarpm) (s : List Nat) : Except Err (Deltarpm × List Nat) :=
  req (readBe32 s) fun (len, s1) =>
    let d1 := { d with sequence_len := len }
    if len < MD5_DIGEST_LENGTH ∨ (len ≠ MD5_DIGEST_LENGTH ∧ d1.type = .RPMONLY) then
      .error .format
    else
      req (readBytes len s1) fun (bs, s2) => .ok ({ d1 with sequence := bs }, s2)

/-- Lines 156-158: the 16-byte target MD5. -/
def md5Phase (d : Deltarpm) (s : List Nat) : Except Err (Deltarpm × List Nat) :=
  req (readBytes MD5_DIGEST_LENGTH s) fun (bs, s1) => .ok ({ d with tgt_md5 := bs }, s1)

/-- Lines 160-184 (the `version >= 2` block without its nested `version == 3`
block): target size, packed compression descriptor decoded by the
collaborator (unrecognized descriptor is FORMAT, line 166-169), compression
parameter length and bytes. -/
def v2Phase (dc : Nat → Option (Nat × Nat)) (d : Deltarpm) (s : List Nat) :
    Except Err (Deltarpm × List Nat) :=
  if d.version < 2 then .ok (d, s)
  else
    req (readBe32 s) fun (tsize, s1) =>
    req (readBe32 s1) fun (packed, s2) =>
    req (dc packed) fun (alg, lvl) =>
    req (readBe32 s2) fun (plen, s3) =>
      let d1 := { d with tgt_size := tsize, tgt_comp := alg, tgt_comp_level := lvl,
                         tgt_comp_param_len := plen }
      if 0 < plen then
        req (readBytes plen s3) fun (bs, s4) => .ok ({ d1 with tgt_comp_param := bs }, s4)
      else .ok (d1, s3)

/-- Lines 186-209, the `version == 3` block (nested inside `version >= 2` in
the C; `version == 3` implies `version >= 2`, so guarding on `version == 3`
alone is equivalent): target header length, offset-adjustment element count
(read straight into the record, line 190), and, when the count is non-zero,
the two-pass table read with sign-magnitude decoding of the odd slots. -/
def offadjPhase (d : Deltarpm) (s : List Nat) : Except Err (Deltarpm × List Nat) :=
  if d.version = 3 then
    req (readBe32 s) fun (hlen, s1) =>
    req (readBe32 s1) fun (cnt, s2) =>
      let d1 := { d with tgt_header_len := hlen, offadj_elems_count := cnt }
      if 0 < cnt then
        req (readTable (fun w => w) decodeSignMagnitude cnt s2) fun (tbl, s3) =>
          .ok ({ d1 with offadj_elems := tbl }, s3)
      else .ok (d1, s2)
  else .ok (d, s)

/-- Lines 212-216: rpm-only deltas must carry the target header in the diff. -/
def hdrCheckPhase (d : Deltarpm) (s : List Nat) : Except Err (Deltarpm × List Nat) :=
  if d.tgt_header_len = 0 ∧ d.type = .RPMONLY then .error .format else .ok (d, s)

/-- Lines 218-234: target lead+signature, length stored (line 220) then
bounded below by RPM_LEADSIG_MIN_LEN (lines 223-226). -/
def leadsigPhase (d : Deltarpm) (s : List Nat) : Except Err (Deltarpm × List Nat) :=
  req (readBe32 s) fun (len, s1) =>
    let d1 := { d with tgt_leadsig_len := len }
    if len < RPM_LEADSIG_MIN_LEN then .error .format
    else
      req (readBytes len s1) fun (bs, s2) => .ok ({ d1 with tgt_leadsig := bs }, s2)

/-- Lines 236-241: payload format offset and the two copy-table counts, read
straight into the record. -/
def payloadCountsPhase (d : Deltarpm) (s : List Nat) : Except Err (Deltarpm × List Nat) :=
  req (readBe32 s) fun (pfo, s1) =>
  req (readBe32 s1) fun (icnt, s2) =>
  req (readBe32 s2) fun (ecnt, s3) =>
    .ok ({ d with payload_fmt_off := pfo, int_copies_count := icnt,
                  ext_copies_count := ecnt }, s3)

/-- Lines 243, 246-257: `int_copies_size = int_copies_count * 2` in
`uint32_t` arithmetic; when non-zero, the two-pass table read (both columns
unsigned). -/
def intCopiesPhase (d : Deltarpm) (s : List Nat) : Except Err (Deltarpm × List Nat) :=
  if 0 < d.int_copies_count * 2 % U32 then
    req (readTable (fun w => w) (fun w => w) d.int_copies_count s) fun (tbl, s1) =>
      .ok ({ d with int_copies := tbl }, s1)
  else .ok (d, s)

/-- Lines 244, 259-273: external copies; the even slots (first column) go
through the sign-magnitude decode. -/
def extCopiesPhase (d : Deltarpm) (s : List Nat) : Except Err (Deltarpm × List Nat) :=
  if 0 < d.ext_copies_count * 2 % U32 then
    req (readTable decodeSignMagnitude (fun w => w) d.ext_copies_count s) fun (tbl, s1) =>
      .ok ({ d with ext_copies := tbl }, s1)
  else .ok (d, s)

/-- Lines 275-283: external data length, 64-bit on version 3, else a 32-bit
value zero-extended. -/
def extDataLenPhase (d : Deltarpm) (s : List Nat) : Except Err (Deltarpm × List Nat) :=
  if d.version = 3 then
    req (readBe64 s) fun (len, s1) => .ok ({ d with ext_data_len := len }, s1)
  else
    req (readBe32 s) fun (len, s1) => .ok ({ d with ext_data_len := len }, s1)

/-- Lines 285-303: in-stream additional data.  A non-zero length is FORMAT
for rpm-only deltas (lines 291-295); otherwise the bytes are read and the
length recorded (the length field is only written in the non-zero branch,
line 302). -/
def addDataPhase (d : Deltarpm) (s : List Nat) : Except Err (Deltarpm × List Nat) :=
  req (readBe32 s) fun (alen, s1) =>
    if 0 < alen then
      if d.type = .RPMONLY then .error .format
      else
        req (readBytes alen s1) fun (bs, s2) =>
          .ok ({ d with add_data := bs, add_data_len := alen }, s2)
    else .ok (d, s1)

/-- Lines 305-330: internal data length (64-bit on version 3), the
`> SIZE_MAX` overflow guard (lines 316-319), the internal data bytes, and
`int_data_as_ptrs = false` (line 330). -/
def intDataPhase (d : Deltarpm) (s : List Nat) : Except Err (Deltarpm × List Nat) :=
  req (if d.version = 3 then readBe64 s else readBe32 s) fun (len, s1) =>
    let d1 := { d with int_data_len := len }
    if SIZE_MAX < d1.int_data_len then .error .overflow
    else if 0 < d1.int_data_len then
      req (readBytes d1.int_data_len s1) fun (bs, s2) =>
        .ok ({ d1 with int_data := bs, int_data_as_ptrs := false }, s2)
    else .ok ({ d1 with int_data_as_ptrs := false }, s1)

/-- `(int32_t)delta->ext_copies[i]` added to a `uint64_t` accumulator: a
stored word with the sign bit set is sign-extended, i.e. contributes
`2^64 - 2^32 + x` modulo `2^64`. -/
def sext32to64 (x : Nat) : Nat := if x < 2147483648 then x else U64 - U32 + x

/-- Lines 332-340: the internal-copy validation walk.  `off` is a `uint64_t`
running total of the odd-slot (second) members; any prefix sum exceeding
`int_data_len` is a format error. -/
def checkIntCopies (len : Nat) (off : Nat) : List Nat → Bool
  | _ :: b :: rest =>
    if len < (off + b) % U64 then false
    else checkIntCopies len ((off + b) % U64) rest
  | _ => true

/-- Lines 342-355: the external-copy validation walk.  The even-slot member
is added as a signed 32-bit value (sign-extended into the `uint64_t`
accumulator), bounded by `ext_data_len`; then the odd-slot member is added
unsigned, and the total must be non-zero and bounded by `ext_data_len`. -/
def checkExtCopies (len : Nat) (off : Nat) : List Nat → Bool
  | a :: b :: rest =>
    if len < (off + sext32to64 a) % U64 then false
    else
      if ((off + sext32to64 a) % U64 + b) % U64 = 0 ∨
          len < ((off + sext32to64 a) % U64 + b) % U64 then false
      else checkExtCopies len (((off + sext32to64 a) % U64 + b) % U64) rest
  | _ => true

/-- The read phases of `readdelta_rest` (lines 101-330) in source order. -/
def parseBody (dc : Nat → Option (Nat × Nat)) (d0 : Deltarpm) (s0 : List Nat) :
    Except Err (Deltarpm × List Nat) :=
  pstep (versionPhase d0 s0) fun d s =>
  pstep (srcNevrPhase d s) fun d s =>
  pstep (sequencePhase d s) fun d s =>
  pstep (md5Phase d s) fun d s =>
  pstep (v2Phase dc d s) fun d s =>
  pstep (offadjPhase d s) fun d s =>
  pstep (hdrCheckPhase d s) fun d s =>
  pstep (leadsigPhase d s) fun d s =>
  pstep (payloadCountsPhase d s) fun d s =>
  pstep (intCopiesPhase d s) fun d s =>
  pstep (extCopiesPhase d s) fun d s =>
  pstep (extDataLenPhase d s) fun d s =>
  pstep (addDataPhase d s) fun d s =>
  intDataPhase d s

/-- `readdelta_rest` (lines 82-361): store the compression algorithm the
stream constructor detected (line 98), run the read phases, then the two
validation walks (lines 332-355).  `read_deltarpm` (lines 469-470) forwards
this result unchanged: any error here is the error `read_deltarpm` returns,
and the successful record is the record it produces. -/
def readdelta_rest (dc : Nat → Option (Nat × Nat)) (comp : Nat) (d0 : Deltarpm)
    (s : List Nat) : Except Err Deltarpm :=
  match parseBody dc { d0 with comp := comp } s with
  | .error e => .error e
  | .ok (d, _) =>
    if checkIntCopies d.int_data_len 0 d.int_copies then
      if checkExtCopies d.ext_data_len 0 d.ext_copies then .ok d
      else .error .format
    else .error .format

/-- Modelled from the spec: `deltarpm_decode_comp` recognizes some packed
compression descriptors and rejects the rest; only that distinction reaches
the parser.  This stand-in (used for concrete runs) recognizes descriptor 0. -/
def decodeCompModel : Nat → Option (Nat × Nat) :=
  fun packed => if packed = 0 then some (0, 0) else none

/-- Modelled from the spec: `dump_hex` (not among the sources) renders an
n-byte blob as a lowercase hexadecimal NUL-terminated string occupying
`2*n + 1` bytes.  Characters are byte values ('0'..'9' are 48..57, 'a'..'f'
are 97..102). -/
def hexDigit (n : Nat) : Nat := if n < 10 then 48 + n else 87 + n

/-- Modelled from the spec: the hex rendering, two digits per byte, plus the
terminating NUL byte. -/
def dump_hex (bs : List Nat) : List Nat :=
  (bs.flatMap fun b => [hexDigit (b / 16 % 16), hexDigit (b % 16)]) ++ [0]

/-- The caller-visible record `struct drpm` (drpm.c), restricted to the
fields `deltarpm_to_drpm` assigns.  `filename` and `tgt_nevr` are omitted:
the first is a borrowed path, the second comes from the RPM collaborator
(standard) or the pre-stream header phase (rpm-only), neither of which is
part of the compressed-region core. -/
structure Drpm where
  version : Nat
  type : DrpmType
  comp : Nat
  tgt_size : Nat
  tgt_comp : Nat
  tgt_header_len : Nat
  payload_fmt_off : Nat
  ext_data_len : Nat
  int_data_len : Nat
  offadj_elems_size : Nat
  int_copies_size : Nat
  ext_copies_size : Nat
  src_nevr : List Nat
  sequence : List Nat
  tgt_md5 : List Nat
  tgt_comp_param : List Nat
  tgt_leadsig : List Nat
  offadj_elems : List Nat
  int_copies : List Nat
  ext_copies : List Nat
  deriving DecidableEq

/-- `deltarpm_to_drpm` (lines 484-557): scalars copied, the three size
fields computed as `count * 2` in `uint32_t` arithmetic (lines 504-506), the
binary blobs hex-dumped (lines 527-531; `tgt_comp_param` only when its
length is non-zero, mirroring lines 511-512 and 530-531 where a zero-length
parameter block stays NULL), and the numeric tables copied verbatim (lines
533-538).  Allocation always succeeds in the model, so the MEMORY path does
not arise. -/
def deltarpm_to_drpm (src : Deltarpm) : Drpm where
  version := src.version
  type := src.type
  comp := src.comp
  tgt_size := src.tgt_size
  tgt_comp := src.tgt_comp
  tgt_header_len := src.tgt_header_len
  payload_fmt_off := src.payload_fmt_off
  ext_data_len := src.ext_data_len
  int_data_len := src.int_data_len
  offadj_elems_size := src.offadj_elems_count * 2 % U32
  int_copies_size := src.int_copies_count * 2 % U32
  ext_copies_size := src.ext_copies_count * 2 % U32
  src_nevr := src.src_nevr
  sequence := dump_hex src.sequence
  tgt_md5 := dump_hex src.tgt_md5
  tgt_comp_param := if 0 < src.tgt_comp_param_len then dump_hex src.tgt_comp_param else []
  tgt_leadsig := dump_hex src.tgt_leadsig
  offadj_elems := src.offadj_elems
  int_copies := src.int_copies
  ext_copies := src.ext_copies

/-- The cumulative `uint64_t` totals of the internal-copy walk, one per
pair, in walk order. -/
def intWalkSums (off : Nat) : List Nat → List Nat
  | _ :: b :: rest => (off + b) % U64 :: intWalkSums ((off + b) % U64) rest
  | _ => []

/-- The cumulative `uint64_t` totals of the external-copy walk: for each
pair, the total after the signed step and the total after the unsigned
step. -/
def extWalkStates (off : Nat) : List Nat → List (Nat × Nat)
  | a :: b :: rest =>
    ((off + sext32to64 a) % U64, ((off + sext32to64 a) % U64 + b) % U64) ::
      extWalkStates (((off + sext32to64 a) % U64 + b) % U64) rest
  | _ => []

/-- Extract the successful value of a parse, with a default. -/
def okOr {α : Type} (m : Except Err α) (dflt : α) : α :=
  match m with
  | .ok a => a
  | .error _ => dflt

/-- A record with a one-byte compression parameter block and a two-byte
sequence, used to instantiate the projection theorem. -/
def srcW : Deltarpm :=
  { Deltarpm.init .STANDARD with
    tgt_comp_param_len := 1
    tgt_comp_param := [171]
    sequence := [0, 255] }

/-- A record whose internal-copy count field is 2^31 with an empty table. -/
def dCnt : Deltarpm := { Deltarpm.init .STANDARD with int_copies_count := 2147483648 }

/-- A concrete compressed region: version magic "DLT0" (low byte '0', so the
decoded version is 0), empty source NEVR, a 16-byte sequence, the 16-byte
MD5, a minimum-length lead+signature, zero payload offset, empty copy
tables, zero external/additional/internal data.  A standard delta parses it
to completion even though 0 is not a version the format defines. -/
def exDLT0 : List Nat :=
  [0x44, 0x4C, 0x54, 0x30] ++ [0, 0, 0, 0] ++
  [0, 0, 0, 16] ++ List.replicate 16 0 ++ List.replicate 16 0 ++
  [0, 0, 0, 112] ++ List.replicate 112 0xAA ++
  [0, 0, 0, 0] ++ [0, 0, 0, 0] ++ [0, 0, 0, 0] ++
  [0, 0, 0, 0] ++ [0, 0, 0, 0] ++ [0, 0, 0, 0]

/-- A concrete compressed region of a well-formed version-3 rpm-only delta:
"DLT3", empty NEVR, 16-byte sequence, MD5, zero target size, packed
descriptor 0 (recognized by `decodeCompModel`), no compression parameters,
target header length 0x50, empty offadj table, minimum lead+signature, empty
copy tables, zero 64-bit external and internal data lengths, zero in-stream
additional data. -/
def exC : List Nat :=
  [0x44, 0x4C, 0x54, 0x33] ++ [0, 0, 0, 0] ++
  [0, 0, 0, 16] ++ List.replicate 16 0 ++ List.replicate 16 0 ++
  [0, 0, 0, 0] ++ [0, 0, 0, 0] ++ [0, 0, 0, 0] ++
  [0, 0, 0, 0x50] ++ [0, 0, 0, 0] ++
  [0, 0, 0, 112] ++ List.replicate 112 0xAA ++
  [0, 0, 0, 0] ++ [0, 0, 0, 0] ++ [0, 0, 0, 0] ++
  List.replicate 8 0 ++ [0, 0, 0, 0] ++ List.replicate 8 0

/-- A concrete version-1 standard region whose single external-copy pair is
(0, 11) against an external data length of 10 — the boundary scenario of the
spec (§8, External-copy overflow). -/
def exB : List Nat :=
  [0x44, 0x4C, 0x54, 0x31] ++ [0, 0, 0, 0] ++
  [0, 0, 0, 16] ++ List.replicate 16 0 ++ List.replicate 16 0 ++
  [0, 0, 0, 112] ++ List.replicate 112 0xAA ++
  [0, 0, 0, 0] ++ [0, 0, 0, 0] ++ [0, 0, 0, 1] ++
  [0, 0, 0, 0] ++ [0, 0, 0, 11] ++
  [0, 0, 0, 10] ++ [0, 0, 0, 0] ++ [0, 0, 0, 0]

/-- A concrete version-1 standard region whose single internal-copy pair is
(0, 5) against an internal data length of 3 (three internal data bytes
follow): the internal walk must reject it. -/
def exD : List Nat :=
  [0x44, 0x4C, 0x54, 0x31] ++ [0, 0, 0, 0] ++
  [0, 0, 0, 16] ++ List.replicate 16 0 ++ List.replicate 16 0 ++
  [0, 0, 0, 112] ++ List.replicate 112 0xAA ++
  [0, 0, 0, 0] ++ [0, 0, 0, 1] ++ [0, 0, 0, 0] ++
  [0, 0, 0, 0] ++ [0, 0, 0, 5] ++
  [0, 0, 0, 0] ++ [0, 0, 0, 0] ++ [0, 0, 0, 3] ++ [7, 7, 7]

/-- A concrete version-3 standard region whose offadj element count word is
0x80000000 (= 2^31).  The 32-bit size computation makes the table read
degenerate to zero words, so the region carries no offadj words at all, yet
it parses to completion with the count recorded as 2^31. -/
def exE : List Nat :=
  [0x44, 0x4C, 0x54, 0x33] ++ [0, 0, 0, 0] ++
  [0, 0, 0, 16] ++ List.replicate 16 0 ++ List.replicate 16 0 ++
  [0, 0, 0, 0] ++ [0, 0, 0, 0] ++ [0, 0, 0, 0] ++
  [0, 0, 0, 0] ++ [128, 0, 0, 0] ++
  [0, 0, 0, 112] ++ List.replicate 112 0xAA ++
  [0, 0, 0, 0] ++ [0, 0, 0, 0] ++ [0, 0, 0, 0] ++
  List.replicate 8 0 ++ [0, 0, 0, 0] ++ List.replicate 8 0

/-- A concrete region declaring a 15-byte sequence after a valid version
magic and an empty source NEVR. -/
def exSeq15 : List Nat :=
  [0x44, 0x4C, 0x54, 0x31] ++ [0, 0, 0, 0] ++ [0, 0, 0, 15]

/-- The record the parser produces on `exC`. -/
def dC : Deltarpm :=
  okOr (readdelta_rest decodeCompModel 0 (Deltarpm.init .RPMONLY) exC)
    (Deltarpm.init .RPMONLY)

/-- The record the read phases produce on `exB` (before the validation
walks). -/
def dB : Deltarpm :=
  (okOr (parseBody decodeCompModel { Deltarpm.init .STANDARD with comp := 0 } exB)
    (Deltarpm.init .STANDARD, [])).1

/-- The record the read phases produce on `exD` (before the validation
walks). -/
def dD : Deltarpm :=
  (okOr (parseBody decodeCompModel { Deltarpm.init .STANDARD with comp := 0 } exD)
    (Deltarpm.init .STANDARD, [])).1

/-- The record the parser produces on `exE`. -/
def dE : Deltarpm :=
  okOr (readdelta_rest decodeCompModel 0 (Deltarpm.init .STANDARD) exE)
    (Deltarpm.init .STANDARD)

theorem req_some {α β : Type} (a : α) (k : α → Except Err β) : req (some a) k = k a := rfl

theorem req_none {α β : Type} (k : α → Except Err β) :
    req (none : Option α) k = .error .format := rfl

theorem pstep_ok (d : Deltarpm) (s : List Nat)
    (k : Deltarpm → List Nat → Except Err (Deltarpm × List Nat)) :
    pstep (.ok (d, s)) k = k d s := rfl

theorem pstep_error (e : Err) (k : Deltarpm → List Nat → Except Err (Deltarpm × List Nat)) :
    pstep (.error e) k = .error e := rfl

theorem pstep_eq_ok {m : Except Err (Deltarpm × List Nat)}
    {k : Deltarpm → List Nat → Except Err (Deltarpm × List Nat)}
    {r : Deltarpm × List Nat} :
    pstep m k = .ok r ↔ ∃ d s, m = .ok (d, s) ∧ k d s = .ok r := by
  cases m with
  | error e => simp [pstep]
  | ok a =>
    obtain ⟨d, s⟩ := a
    simp only [pstep, Except.ok.injEq, Prod.mk.injEq]
    exact ⟨fun h => ⟨d, s, ⟨rfl, rfl⟩, h⟩, by rintro ⟨d1, s1, ⟨rfl, rfl⟩, h⟩; exact h⟩

theorem readNWords_length :
    ∀ (n : Nat) (s ws s' : List Nat), readNWords n s = some (ws, s') → ws.length = n := by
  intro n
  induction n with
  | zero =>
    intro s ws s' h
    simp only [readNWords, Option.some.injEq, Prod.mk.injEq] at h
    simp [← h.1]
  | succ n ih =>
    intro s ws s' h
    unfold readNWords at h
    cases h1 : readBe32 s with
    | none => simp only [h1] at h; exact Option.noConfusion h
    | some p =>
      obtain ⟨w, s1⟩ := p
      simp only [h1] at h
      cases h2 : readNWords n s1 with
      | none => simp only [h2] at h; exact Option.noConfusion h
      | some q =>
        obtain ⟨ws0, s2⟩ := q
        simp only [h2, Option.some.injEq, Prod.mk.injEq] at h
        obtain ⟨hw, hs⟩ := h
        simp [← hw, ih s1 ws0 s2 h2]

theorem readNWords_split (m n : Nat) :
    ∀ (s ws s2 : List Nat), readNWords (m + n) s = some (ws, s2) →
      ∃ ws1 s1 ws2, readNWords m s = some (ws1, s1) ∧ readNWords n s1 = some (ws2, s2) ∧
        ws = ws1 ++ ws2 := by
  induction m with
  | zero =>
    intro s ws s2 h
    rw [Nat.zero_add] at h
    exact ⟨[], s, ws, rfl, h, rfl⟩
  | succ m ih =>
    intro s ws s2 h
    rw [Nat.succ_add] at h
    unfold readNWords at h
    cases h1 : readBe32 s with
    | none => simp only [h1] at h; exact Option.noConfusion h
    | some p =>
      obtain ⟨w, s1⟩ := p
      simp only [h1] at h
      cases h2 : readNWords (m + n) s1 with
      | none => simp only [h2] at h; exact Option.noConfusion h
      | some q =>
        obtain ⟨ws0, s3⟩ := q
        simp only [h2, Option.some.injEq, Prod.mk.injEq] at h
        obtain ⟨hw, hs⟩ := h
        obtain ⟨ws1, sm, ws2, g1, g2, g3⟩ := ih s1 ws0 s3 h2
        refine ⟨w :: ws1, sm, ws2, ?_, by rw [g2, hs], by simp [← hw, g3]⟩
        unfold readNWords
        simp only [h1, g1]

theorem interleave_length :
    ∀ (as bs : List Nat), as.length = bs.length →
      (interleave as bs).length = as.length + bs.length := by
  intro as
  induction as with
  | nil =>
    intro bs h
    cases bs with
    | nil => simp [interleave]
    | cons b t => simp at h
  | cons a t ih =>
    intro bs h
    cases bs with
    | nil => simp at h
    | cons b u =>
      simp only [List.length_cons] at h
      simp only [interleave, List.length_cons, ih u (by omega)]
      omega

theorem tableSize_even (c : Nat) : c * 2 % U32 = c * 2 % U32 / 2 + c * 2 % U32 / 2 := by
  have h : c * 2 % U32 = 2 * (c % 2147483648) := by
    rw [Nat.mul_comm c 2]
    exact Nat.mul_mod_mul_left 2 c 2147483648
  omega

theorem readTable_of_readNWords (f g : Nat → Nat) (c : Nat) (s ws s' : List Nat)
    (h : readNWords (c * 2 % U32) s = some (ws, s')) :
    readTable f g c s =
      some (interleave ((ws.take (c * 2 % U32 / 2)).map f)
        ((ws.drop (c * 2 % U32 / 2)).map g), s') := by
  rw [tableSize_even c] at h
  obtain ⟨ws1, s1, ws2, h1, h2, rfl⟩ := readNWords_split _ _ _ _ _ h
  have l1 := readNWords_length _ _ _ _ h1
  simp only [readTable, h1, h2, List.take_left' l1, List.drop_left' l1]

theorem readTable_length (f g : Nat → Nat) (c : Nat) (s tbl s' : List Nat)
    (h : readTable f g c s = some (tbl, s')) : tbl.length = c * 2 % U32 := by
  unfold readTable at h
  cases h1 : readNWords (c * 2 % U32 / 2) s with
  | none => simp only [h1] at h; exact Option.noConfusion h
  | some p =>
    obtain ⟨fs, s1⟩ := p
    simp only [h1] at h
    cases h2 : readNWords (c * 2 % U32 / 2) s1 with
    | none => simp only [h2] at h; exact Option.noConfusion h
    | some q =>
      obtain ⟨gs, s2⟩ := q
      simp only [h2, Option.some.injEq, Prod.mk.injEq] at h
      have lf := readNWords_length _ _ _ _ h1
      have lg := readNWords_length _ _ _ _ h2
      have hlen : (interleave (fs.map f) (gs.map g)).length =
          (fs.map f).length + (gs.map g).length :=
        interleave_length _ _ (by simp [lf, lg])
      rw [← h.1, hlen]
      simp only [List.length_map, lf, lg]
      exact (tableSize_even c).symm

theorem twoStepInduction {P : List Nat → Prop} (h0 : P []) (h1 : ∀ a, P [a])
    (h2 : ∀ a b l, P l → P (a :: b :: l)) : ∀ l, P l := by
  have key : ∀ (n : Nat) (l : List Nat), l.length ≤ n → P l := by
    intro n
    induction n with
    | zero =>
      intro l hl
      cases l with
      | nil => exact h0
      | cons a t => simp at hl
    | succ n ih =>
      intro l hl
      cases l with
      | nil => exact h0
      | cons a t =>
        cases t with
        | nil => exact h1 a
        | cons b r =>
          refine h2 a b r (ih r ?_)
          simp only [List.length_cons] at hl
          omega
  intro l
  exact key l.length l le_rfl

theorem checkIntCopies_walk (len : Nat) :
    ∀ (ws : List Nat) (off : Nat), checkIntCopies len off ws = true →
      ∀ o ∈ intWalkSums off ws, o ≤ len := by
  refine twoStepInduction ?_ ?_ ?_
  · intro off _ o ho; simp [intWalkSums] at ho
  · intro a off _ o ho; simp [intWalkSums] at ho
  · intro a b l ih off h o ho
    rw [checkIntCopies] at h
    split at h
    · exact absurd h (by simp)
    · rw [intWalkSums] at ho
      rcases List.mem_cons.mp ho with rfl | hmem
      · omega
      · exact ih _ h o hmem

theorem checkExtCopies_walk (len : Nat) :
    ∀ (ws : List Nat) (off : Nat), checkExtCopies len off ws = true →
      ∀ p ∈ extWalkStates off ws, p.1 ≤ len ∧ p.2 ≠ 0 ∧ p.2 ≤ len := by
  refine twoStepInduction ?_ ?_ ?_
  · intro off _ p hp; simp [extWalkStates] at hp
  · intro a off _ p hp; simp [extWalkStates] at hp
  · intro a b l ih off h p hp
    rw [checkExtCopies] at h
    split at h
    · exact absurd h (by simp)
    · split at h
      · exact absurd h (by simp)
      · rw [extWalkStates] at hp
        rcases List.mem_cons.mp hp with rfl | hmem
        · refine ⟨by omega, ?_, by omega⟩
          intro h0
          omega
        · exact ih _ h p hmem

theorem readdelta_rest_ok_inv (dc : Nat → Option (Nat × Nat)) (comp : Nat)
    (d0 : Deltarpm) (s : List Nat) (d : Deltarpm)
    (h : readdelta_rest dc comp d0 s = .ok d) :
    (∃ s', parseBody dc { d0 with comp := comp } s = .ok (d, s')) ∧
    checkIntCopies d.int_data_len 0 d.int_copies = true ∧
    checkExtCopies d.ext_data_len 0 d.ext_copies = true := by
  unfold readdelta_rest at h
  cases hp : parseBody dc { d0 with comp := comp } s with
  | error e => rw [hp] at h; exact absurd h (by simp)
  | ok r =>
    rw [hp] at h
    obtain ⟨d1, s1⟩ := r
    by_cases h1 : checkIntCopies d1.int_data_len 0 d1.int_copies = true
    · by_cases h2 : checkExtCopies d1.ext_data_len 0 d1.ext_copies = true
      · simp only [h1, h2, if_true, Except.ok.injEq] at h
        subst h
        exact ⟨⟨s1, rfl⟩, h1, h2⟩
      · simp only [h1, if_true, Bool.not_eq_true] at h2
        simp only [h1, h2, Bool.false_eq_true, if_true, if_false] at h
        exact absurd h (by simp)
    · simp only [Bool.not_eq_true] at h1
      simp only [h1, Bool.false_eq_true, if_false] at h
      exact absurd h (by simp)

theorem readdelta_rest_check_fail (dc : Nat → Option (Nat × Nat)) (comp : Nat)
    (d0 : Deltarpm) (s : List Nat) (d : Deltarpm) (s2 : List Nat)
    (hp : parseBody dc { d0 with comp := comp } s = .ok (d, s2))
    (hfail : checkIntCopies d.int_data_len 0 d.int_copies = false ∨
      checkExtCopies d.ext_data_len 0 d.ext_copies = false) :
    readdelta_rest dc comp d0 s = .error .format := by
  unfold readdelta_rest
  rw [hp]
  by_cases h1 : checkIntCopies d.int_data_len 0 d.int_copies = true
  · rcases hfail with hf | hf
    · rw [h1] at hf; exact absurd hf (by simp)
    · simp [h1, hf]
  · simp only [Bool.not_eq_true] at h1
    simp [h1]

theorem versionPhase_inv {d d' : Deltarpm} {s s' : List Nat}
    (h : versionPhase d s = .ok (d', s')) :
    d'.type = d.type ∧ d'.sequence_len = d.sequence_len ∧
    d'.tgt_header_len = d.tgt_header_len ∧ ¬(d'.version < 3 ∧ d'.type = .RPMONLY) := by
  unfold versionPhase req at h
  split at h
  · exact Except.noConfusion h
  · rename_i p heq
    obtain ⟨v, s1⟩ := p
    dsimp only at h
    split at h
    · split at h
      · exact Except.noConfusion h
      · rename_i hcond
        simp only [Except.ok.injEq, Prod.mk.injEq] at h
        obtain ⟨hd, hs⟩ := h
        subst hd
        simp_all
    · exact Except.noConfusion h

theorem srcNevrPhase_inv {d d' : Deltarpm} {s s' : List Nat}
    (h : srcNevrPhase d s = .ok (d', s')) :
    d'.type = d.type ∧ d'.version = d.version ∧ d'.sequence_len = d.sequence_len ∧
    d'.tgt_header_len = d.tgt_header_len := by
  unfold srcNevrPhase req at h
  split at h
  · exact Except.noConfusion h
  · rename_i p _
    obtain ⟨len, s1⟩ := p
    dsimp only at h
    split at h
    · exact Except.noConfusion h
    · rename_i q _
      obtain ⟨bs, s2⟩ := q
      dsimp only at h
      simp only [Except.ok.injEq, Prod.mk.injEq] at h
      obtain ⟨hd, _⟩ := h
      subst hd
      simp

theorem sequencePhase_inv {d d' : Deltarpm} {s s' : List Nat}
    (h : sequencePhase d s = .ok (d', s')) :
    d'.type = d.type ∧ d'.version = d.version ∧ d'.tgt_header_len = d.tgt_header_len ∧
    (d'.type = .RPMONLY → d'.sequence_len = MD5_DIGEST_LENGTH) := by
  unfold sequencePhase req at h
  split at h
  · exact Except.noConfusion h
  · rename_i p _
    obtain ⟨len, s1⟩ := p
    dsimp only at h
    split at h
    · exact Except.noConfusion h
    · rename_i hcond
      split at h
      · exact Except.noConfusion h
      · rename_i q _
        obtain ⟨bs, s2⟩ := q
        dsimp only at h
        simp only [Except.ok.injEq, Prod.mk.injEq] at h
        obtain ⟨hd, _⟩ := h
        subst hd
        refine ⟨rfl, rfl, rfl, fun ht => ?_⟩
        simp only [not_or, not_and, not_lt, Decidable.not_not] at hcond
        by_contra hne
        exact absurd (hcond.2 (by simpa using hne)) (by simpa using ht)

theorem md5Phase_inv {d d' : Deltarpm} {s s' : List Nat}
    (h : md5Phase d s = .ok (d', s')) :
    d'.type = d.type ∧ d'.version = d.version ∧ d'.sequence_len = d.sequence_len ∧
    d'.tgt_header_len = d.tgt_header_len := by
  unfold md5Phase req at h
  split at h
  · exact Except.noConfusion h
  · rename_i p _
    obtain ⟨bs, s1⟩ := p
    dsimp only at h
    simp only [Except.ok.injEq, Prod.mk.injEq] at h
    obtain ⟨hd, _⟩ := h
    subst hd
    simp

theorem v2Phase_inv {dc : Nat → Option (Nat × Nat)} {d d' : Deltarpm} {s s' : List Nat}
    (h : v2Phase dc d s = .ok (d', s')) :
    d'.type = d.type ∧ d'.version = d.version ∧ d'.sequence_len = d.sequence_len ∧
    d'.tgt_header_len = d.tgt_header_len := by
  unfold v2Phase req at h
  split at h
  · simp only [Except.ok.injEq, Prod.mk.injEq] at h
    obtain ⟨hd, _⟩ := h
    subst hd
    simp
  · split at h
    · exact Except.noConfusion h
    · rename_i p _
      obtain ⟨tsize, s1⟩ := p
      dsimp only at h
      split at h
      · exact Except.noConfusion h
      · rename_i q _
        obtain ⟨packed, s2⟩ := q
        dsimp only at h
        split at h
        · exact Except.noConfusion h
        · rename_i r _
          obtain ⟨alg, lvl⟩ := r
          dsimp only at h
          split at h
          · exact Except.noConfusion h
          · rename_i u _
            obtain ⟨plen, s3⟩ := u
            dsimp only at h
            split at h
            · split at h
              · exact Except.noConfusion h
              · rename_i w _
                obtain ⟨bs, s4⟩ := w
                dsimp only at h
                simp only [Except.ok.injEq, Prod.mk.injEq] at h
                obtain ⟨hd, _⟩ := h
                subst hd
                simp
            · simp only [Except.ok.injEq, Prod.mk.injEq] at h
              obtain ⟨hd, _⟩ := h
              subst hd
              simp

theorem offadjPhase_inv {d d' : Deltarpm} {s s' : List Nat}
    (h : offadjPhase d s = .ok (d', s')) :
    d'.type = d.type ∧ d'.version = d.version ∧ d'.sequence_len = d.sequence_len ∧
    (d.version ≠ 3 → d'.tgt_header_len = d.tgt_header_len) := by
  unfold offadjPhase req at h
  split at h
  · rename_i hv
    split at h
    · exact Except.noConfusion h
    · rename_i p _
      obtain ⟨hlen, s1⟩ := p
      dsimp only at h
      split at h
      · exact Except.noConfusion h
      · rename_i q _
        obtain ⟨cnt, s2⟩ := q
        dsimp only at h
        split at h
        · split at h
          · exact Except.noConfusion h
          · rename_i w _
            obtain ⟨tbl, s3⟩ := w
            dsimp only at h
            simp only [Except.ok.injEq, Prod.mk.injEq] at h
            obtain ⟨hd, _⟩ := h
            subst hd
            exact ⟨rfl, rfl, rfl, fun hne => absurd hv hne⟩
        · simp only [Except.ok.injEq, Prod.mk.injEq] at h
          obtain ⟨hd, _⟩ := h
          subst hd
          exact ⟨rfl, rfl, rfl, fun hne => absurd hv hne⟩
  · simp only [Except.ok.injEq, Prod.mk.injEq] at h
    obtain ⟨hd, _⟩ := h
    subst hd
    simp

theorem hdrCheckPhase_inv {d d' : Deltarpm} {s s' : List Nat}
    (h : hdrCheckPhase d s = .ok (d', s')) :
    d' = d ∧ ¬(d.tgt_header_len = 0 ∧ d.type = .RPMONLY) := by
  unfold hdrCheckPhase at h
  split at h
  · exact Except.noConfusion h
  · rename_i hcond
    simp only [Except.ok.injEq, Prod.mk.injEq] at h
    exact ⟨h.1.symm, hcond⟩

theorem leadsigPhase_inv {d d' : Deltarpm} {s s' : List Nat}
    (h : leadsigPhase d s = .ok (d', s')) :
    d'.type = d.type ∧ d'.version = d.version ∧ d'.sequence_len = d.sequence_len ∧
    d'.tgt_header_len = d.tgt_header_len := by
  unfold leadsigPhase req at h
  split at h
  · exact Except.noConfusion h
  · rename_i p _
    obtain ⟨len, s1⟩ := p
    dsimp only at h
    split at h
    · exact Except.noConfusion h
    · split at h
      · exact Except.noConfusion h
      · rename_i q _
        obtain ⟨bs, s2⟩ := q
        dsimp only at h
        simp only [Except.ok.injEq, Prod.mk.injEq] at h
        obtain ⟨hd, _⟩ := h
        subst hd
        simp

theorem payloadCountsPhase_inv {d d' : Deltarpm} {s s' : List Nat}
    (h : payloadCountsPhase d s = .ok (d', s')) :
    d'.type = d.type ∧ d'.version = d.version ∧ d'.sequence_len = d.sequence_len ∧
    d'.tgt_header_len = d.tgt_header_len := by
  unfold payloadCountsPhase req at h
  split at h
  · exact Except.noConfusion h
  · rename_i p _
    obtain ⟨pfo, s1⟩ := p
    dsimp only at h
    split at h
    · exact Except.noConfusion h
    · rename_i q _
      obtain ⟨icnt, s2⟩ := q
      dsimp only at h
      split at h
      · exact Except.noConfusion h
      · rename_i u _
        obtain ⟨ecnt, s3⟩ := u
        dsimp only at h
        simp only [Except.ok.injEq, Prod.mk.injEq] at h
        obtain ⟨hd, _⟩ := h
        subst hd
        simp

theorem intCopiesPhase_inv {d d' : Deltarpm} {s s' : List Nat}
    (h : intCopiesPhase d s = .ok (d', s')) :
    d'.type = d.type ∧ d'.version = d.version ∧ d'.sequence_len = d.sequence_len ∧
    d'.tgt_header_len = d.tgt_header_len := by
  unfold intCopiesPhase req at h
  split at h
  · split at h
    · exact Except.noConfusion h
    · rename_i w _
      obtain ⟨tbl, s1⟩ := w
      dsimp only at h
      simp only [Except.ok.injEq, Prod.mk.injEq] at h
      obtain ⟨hd, _⟩ := h
      subst hd
      simp
  · simp only [Except.ok.injEq, Prod.mk.injEq] at h
    obtain ⟨hd, _⟩ := h
    subst hd
    simp

theorem extCopiesPhase_inv {d d' : Deltarpm} {s s' : List Nat}
    (h : extCopiesPhase d s = .ok (d', s')) :
    d'.type = d.type ∧ d'.version = d.version ∧ d'.sequence_len = d.sequence_len ∧
    d'.tgt_header_len = d.tgt_header_len := by
  unfold extCopiesPhase req at h
  split at h
  · split at h
    · exact Except.noConfusion h
    · rename_i w _
      obtain ⟨tbl, s1⟩ := w
      dsimp only at h
      simp only [Except.ok.injEq, Prod.mk.injEq] at h
      obtain ⟨hd, _⟩ := h
      subst hd
      simp
  · simp only [Except.ok.injEq, Prod.mk.injEq] at h
    obtain ⟨hd, _⟩ := h
    subst hd
    simp

theorem extDataLenPhase_inv {d d' : Deltarpm} {s s' : List Nat}
    (h : extDataLenPhase d s = .ok (d', s')) :
    d'.type = d.type ∧ d'.version = d.version ∧ d'.sequence_len = d.sequence_len ∧
    d'.tgt_header_len = d.tgt_header_len := by
  unfold extDataLenPhase req at h
  split at h
  · split at h
    · exact Except.noConfusion h
    · rename_i p _
      obtain ⟨len, s1⟩ := p
      dsimp only at h
      simp only [Except.ok.injEq, Prod.mk.injEq] at h
      obtain ⟨hd, _⟩ := h
      subst hd
      simp
  · split at h
    · exact Except.noConfusion h
    · rename_i p _
      obtain ⟨len, s1⟩ := p
      dsimp only at h
      simp only [Except.ok.injEq, Prod.mk.injEq] at h
      obtain ⟨hd, _⟩ := h
      subst hd
      simp

theorem addDataPhase_inv {d d' : Deltarpm} {s s' : List Nat}
    (h : addDataPhase d s = .ok (d', s')) :
    d'.type = d.type ∧ d'.version = d.version ∧ d'.sequence_len = d.sequence_len ∧
    d'.tgt_header_len = d.tgt_header_len := by
  unfold addDataPhase req at h
  split at h
  · exact Except.noConfusion h
  · rename_i p _
    obtain ⟨alen, s1⟩ := p
    dsimp only at h
    split at h
    · split at h
      · exact Except.noConfusion h
      · split at h
        · exact Except.noConfusion h
        · rename_i w _
          obtain ⟨bs, s2⟩ := w
          dsimp only at h
          simp only [Except.ok.injEq, Prod.mk.injEq] at h
          obtain ⟨hd, _⟩ := h
          subst hd
          simp
    · simp only [Except.ok.injEq, Prod.mk.injEq] at h
      obtain ⟨hd, _⟩ := h
      subst hd
      simp

theorem intDataPhase_inv {d d' : Deltarpm} {s s' : List Nat}
    (h : intDataPhase d s = .ok (d', s')) :
    d'.type = d.type ∧ d'.version = d.version ∧ d'.sequence_len = d.sequence_len ∧
    d'.tgt_header_len = d.tgt_header_len := by
  unfold intDataPhase req at h
  split at h
  · exact Except.noConfusion h
  · rename_i p _
    obtain ⟨len, s1⟩ := p
    dsimp only at h
    split at h
    · exact Except.noConfusion h
    · split at h
      · split at h
        · exact Except.noConfusion h
        · rename_i w _
          obtain ⟨bs, s2⟩ := w
          dsimp only at h
          simp only [Except.ok.injEq, Prod.mk.injEq] at h
          obtain ⟨hd, _⟩ := h
          subst hd
          simp
      · simp only [Except.ok.injEq, Prod.mk.injEq] at h
        obtain ⟨hd, _⟩ := h
        subst hd
        simp

theorem parseBody_rpmonly_inv (dc : Nat → Option (Nat × Nat)) (d0 : Deltarpm)
    (s : List Nat) (d : Deltarpm) (sf : List Nat)
    (h0type : d0.type = .RPMONLY) (h0hdr : d0.tgt_header_len = 0)
    (h : parseBody dc d0 s = .ok (d, sf)) :
    d.version = 3 ∧ d.sequence_len = MD5_DIGEST_LENGTH ∧ 0 < d.tgt_header_len := by
  unfold parseBody at h
  simp only [pstep_eq_ok] at h
  obtain ⟨d1, s1, h1, d2, s2, h2, d3, s3, h3, d4, s4, h4, d5, s5, h5, d6, s6, h6,
    d7, s7, h7, d8, s8, h8, d9, s9, h9, d10, s10, h10, d11, s11, h11, d12, s12, h12,
    d13, s13, h13, h14⟩ := h
  obtain ⟨t1, q1, g1, hv1⟩ := versionPhase_inv h1
  obtain ⟨t2, v2, q2, g2⟩ := srcNevrPhase_inv h2
  obtain ⟨t3, v3, g3, q3⟩ := sequencePhase_inv h3
  obtain ⟨t4, v4, q4, g4⟩ := md5Phase_inv h4
  obtain ⟨t5, v5, q5, g5⟩ := v2Phase_inv h5
  obtain ⟨t6, v6, q6, g6⟩ := offadjPhase_inv h6
  obtain ⟨e7, hchk⟩ := hdrCheckPhase_inv h7
  obtain ⟨t8, v8, q8, g8⟩ := leadsigPhase_inv h8
  obtain ⟨t9, v9, q9, g9⟩ := payloadCountsPhase_inv h9
  obtain ⟨t10, v10, q10, g10⟩ := intCopiesPhase_inv h10
  obtain ⟨t11, v11, q11, g11⟩ := extCopiesPhase_inv h11
  obtain ⟨t12, v12, q12, g12⟩ := extDataLenPhase_inv h12
  obtain ⟨t13, v13, q13, g13⟩ := addDataPhase_inv h13
  obtain ⟨t14, v14, q14, g14⟩ := intDataPhase_inv h14
  have htype6 : d6.type = .RPMONLY := by
    rw [t6, t5, t4, t3, t2, t1, h0type]
  have hhdr6 : d6.tgt_header_len ≠ 0 := by
    intro hz
    exact hchk ⟨e7 ▸ hz, e7 ▸ htype6⟩
  have hv5eq3 : d5.version = 3 := by
    by_contra hne
    exact hhdr6 (by rw [g6 hne, g5, g4, g3, g2, g1, h0hdr])
  have hver : d.version = 3 := by
    rw [v14, v13, v12, v11, v10, v9, v8, e7, v6, hv5eq3]
  have htype3 : d3.type = .RPMONLY := by rw [t3, t2, t1, h0type]
  have hseq : d.sequence_len = MD5_DIGEST_LENGTH := by
    rw [q14, q13, q12, q11, q10, q9, q8, e7, q6, q5, q4, q3 htype3]
  have hhdr : 0 < d.tgt_header_len := by
    have : d.tgt_header_len = d6.tgt_header_len := by
      rw [g14, g13, g12, g11, g10, g9, g8, e7]
    omega
  exact ⟨hver, hseq, hhdr⟩

theorem readdelta_rest_error_of_parseBody (dc : Nat → Option (Nat × Nat)) (comp : Nat)
    (d0 : Deltarpm) (s : List Nat) (e : Err)
    (h : parseBody dc { d0 with comp := comp } s = .error e) :
    readdelta_rest dc comp d0 s = .error e := by
  unfold readdelta_rest
  rw [h]

theorem parseBody_error_of_versionPhase (dc : Nat → Option (Nat × Nat))
    (d0 : Deltarpm) (s : List Nat) (e : Err) (h : versionPhase d0 s = .error e) :
    parseBody dc d0 s = .error e := by
  unfold parseBody
  rw [h, pstep_error]

theorem versionPhase_none_fail {d : Deltarpm} {s : List Nat}
    (hr : readBe32 s = none) : versionPhase d s = .error .format := by
  unfold versionPhase
  rw [hr, req_none]

theorem versionPhase_magic_fail {d : Deltarpm} {s : List Nat} {v : Nat} {s1 : List Nat}
    (hr : readBe32 s = some (v, s1)) (hm : MAGIC_DLT v = false) :
    versionPhase d s = .error .format := by
  unfold versionPhase
  rw [hr, req_some]
  simp [hm]

theorem versionPhase_rpmonly_fail {d : Deltarpm} {s : List Nat} {v : Nat} {s1 : List Nat}
    (ht : d.type = .RPMONLY) (hr : readBe32 s = some (v, s1)) (hm : MAGIC_DLT v = true)
    (hv : versionOf v < 3) : versionPhase d s = .error .format := by
  unfold versionPhase
  rw [hr, req_some]
  simp [hm, hv, ht]

theorem sequencePhase_short {d : Deltarpm} {s : List Nat} {len : Nat} {s1 : List Nat}
    (hr : readBe32 s = some (len, s1)) (hlen : len < 16) :
    sequencePhase d s = .error .format := by
  unfold sequencePhase
  rw [hr, req_some]
  simp [MD5_DIGEST_LENGTH, hlen]

theorem and_msb_eq_zero {v : Nat} (hv : v < 2147483648) : v &&& 2147483648 = 0 := by
  have h := Nat.and_two_pow v 31
  have hb : v.testBit 31 = false := Nat.testBit_lt_two_pow (by norm_num; omega)
  rw [hb] at h
  norm_num at h
  exact h

theorem testBit31_true {v : Nat} (h1 : 2147483648 ≤ v) (h2 : v < 4294967296) :
    v.testBit 31 = true := by
  rw [Nat.testBit_to_div_mod]
  have hd : v / 2 ^ 31 = 1 := by
    apply Nat.div_eq_of_lt_le <;> norm_num <;> omega
  rw [hd]
  norm_num

theorem and_msb_ne_zero {v : Nat} (h1 : 2147483648 ≤ v) (h2 : v < 4294967296) :
    v &&& 2147483648 ≠ 0 := by
  have h := Nat.and_two_pow v 31
  rw [testBit31_true h1 h2] at h
  norm_num at h
  intro hz
  rw [hz] at h
  norm_num at h

theorem xor_msb {v : Nat} (h1 : 2147483648 ≤ v) (h2 : v < 4294967296) :
    v ^^^ 2147483648 = v % 2147483648 := by
  have e31 : (2147483648 : Nat) = 2 ^ 31 := by norm_num
  have hself : Nat.testBit 2147483648 31 = true := by
    rw [e31]; exact Nat.testBit_two_pow_self
  apply Nat.eq_of_testBit_eq
  intro i
  rw [e31, Nat.testBit_xor, Nat.testBit_mod_two_pow, ← e31]
  rcases Nat.lt_trichotomy i 31 with hlt | heq | hgt
  · have hne : Nat.testBit 2147483648 i = false := by
      rw [e31]; exact Nat.testBit_two_pow_of_ne (by omega)
    simp [hne, hlt]
  · subst heq
    simp [hself, testBit31_true h1 h2]
  · have hne : Nat.testBit 2147483648 i = false := by
      rw [e31]; exact Nat.testBit_two_pow_of_ne (by omega)
    have hv : v.testBit i = false := by
      apply Nat.testBit_lt_two_pow
      calc v < 4294967296 := h2
        _ = 2 ^ 32 := by norm_num
        _ ≤ 2 ^ i := Nat.pow_le_pow_right (by norm_num) (by omega)
    simp [hne, hv, show ¬ i < 31 by omega]

theorem and_low31 (v : Nat) : v &&& 2147483647 = v % 2147483648 := by
  have h := Nat.and_pow_two_sub_one_eq_mod v 31
  norm_num at h
  exact h

theorem dump_hex_length (bs : List Nat) : (dump_hex bs).length = 2 * bs.length + 1 := by
  unfold dump_hex
  induction bs with
  | nil => rfl
  | cons b t ih =>
    simp only [List.flatMap_cons, List.append_assoc, List.length_append, List.length_cons,
      List.length_nil] at ih ⊢
    omega

theorem dump_hex_last (bs : List Nat) : (dump_hex bs).getLast? = some 0 := by
  unfold dump_hex
  exact List.getLast?_concat _

/-- C1 (corrected).  The parser requires `MAGIC_DLT` of the first in-stream
word (high 24 bits "DLT"; a missing word is also FORMAT) and decodes
`version := low byte - '0'` in `uint32_t` arithmetic; for an rpm-only delta
a version below 3 is FORMAT.  But contrary to the claim, no check confines
the version to 1..3: for a standard delta any other low byte passes this
stage (see `C1_counterexample`, where "DLT0" parses to completion). -/
theorem C1_version_magic :
    (∀ (dc : Nat → Option (Nat × Nat)) (comp : Nat) (d0 : Deltarpm) (s : List Nat),
        readBe32 s = none → readdelta_rest dc comp d0 s = .error .format) ∧
    (∀ (dc : Nat → Option (Nat × Nat)) (comp : Nat) (d0 : Deltarpm) (s : List Nat)
        (v : Nat) (s1 : List Nat),
        readBe32 s = some (v, s1) → MAGIC_DLT v = false →
        readdelta_rest dc comp d0 s = .error .format) ∧
    (∀ (dc : Nat → Option (Nat × Nat)) (comp : Nat) (d0 : Deltarpm) (s : List Nat)
        (v : Nat) (s1 : List Nat),
        d0.type = .RPMONLY → readBe32 s = some (v, s1) → MAGIC_DLT v = true →
        versionOf v < 3 → readdelta_rest dc comp d0 s = .error .format) := by
  refine ⟨?_, ?_, ?_⟩
  · intro dc comp d0 s hr
    exact readdelta_rest_error_of_parseBody dc comp d0 s .format
      (parseBody_error_of_versionPhase dc _ s .format (versionPhase_none_fail hr))
  · intro dc comp d0 s v s1 hr hm
    exact readdelta_rest_error_of_parseBody dc comp d0 s .format
      (parseBody_error_of_versionPhase dc _ s .format (versionPhase_magic_fail hr hm))
  · intro dc comp d0 s v s1 ht hr hm hv
    exact readdelta_rest_error_of_parseBody dc comp d0 s .format
      (parseBody_error_of_versionPhase dc _ s .format
        (versionPhase_rpmonly_fail (by simpa using ht) hr hm hv))

/-- C1 counterexample.  `exDLT0` carries the version magic "DLT0": the
decoded version is 0, not 1, 2 or 3, yet `readdelta_rest` (and hence
`read_deltarpm`, which forwards its result) returns a record rather than
FORMAT.  The claim's 'any other version value makes read_deltarpm return
FORMAT and no record is produced' is therefore false on the code. -/
theorem C1_counterexample :
    (readdelta_rest decodeCompModel 0 (Deltarpm.init .STANDARD) exDLT0).map
      Deltarpm.version = .ok 0 ∧
    (0 : Nat) ≠ 1 ∧ (0 : Nat) ≠ 2 ∧ (0 : Nat) ≠ 3 := ⟨rfl, by decide, by decide, by decide⟩

theorem C1_version_magic_witness :
    readdelta_rest decodeCompModel 0 (Deltarpm.init .STANDARD) [1, 2] = .error .format ∧
    readdelta_rest decodeCompModel 0 (Deltarpm.init .STANDARD) [0, 0, 0, 0] =
      .error .format ∧
    readdelta_rest decodeCompModel 0 (Deltarpm.init .RPMONLY) [0x44, 0x4C, 0x54, 0x32] =
      .error .format :=
  ⟨C1_version_magic.1 decodeCompModel 0 (Deltarpm.init .STANDARD) [1, 2] rfl,
   C1_version_magic.2.1 decodeCompModel 0 (Deltarpm.init .STANDARD) [0, 0, 0, 0] 0 [] rfl rfl,
   C1_version_magic.2.2 decodeCompModel 0 (Deltarpm.init .RPMONLY) [0x44, 0x4C, 0x54, 0x32]
     0x444C5432 [] rfl rfl rfl (by decide)⟩

/-- C2 (confirmed).  A record `readdelta_rest` returns successfully for an
rpm-only delta has version 3, sequence length 16 and a positive target
header length; and the additional-data length read in the compressed stream
is necessarily zero: a non-zero value is FORMAT (lines 290-295), and on
success the word read by the add-data step is 0. -/
theorem C2_rpmonly_invariants :
    (∀ (dc : Nat → Option (Nat × Nat)) (comp : Nat) (s : List Nat) (d : Deltarpm),
        readdelta_rest dc comp (Deltarpm.init .RPMONLY) s = .ok d →
        d.version = 3 ∧ d.sequence_len = 16 ∧ 0 < d.tgt_header_len) ∧
    (∀ (d : Deltarpm) (s : List Nat) (alen : Nat) (s1 : List Nat),
        d.type = .RPMONLY → readBe32 s = some (alen, s1) → alen ≠ 0 →
        addDataPhase d s = .error .format) ∧
    (∀ (d : Deltarpm) (s : List Nat) (r : Deltarpm × List Nat),
        d.type = .RPMONLY → addDataPhase d s = .ok r →
        readBe32 s = some (0, r.2)) := by
  refine ⟨?_, ?_, ?_⟩
  · intro dc comp s d h
    obtain ⟨⟨s', hp⟩, _, _⟩ := readdelta_rest_ok_inv dc comp (Deltarpm.init .RPMONLY) s d h
    exact parseBody_rpmonly_inv dc _ s d s' rfl rfl hp
  · intro d s alen s1 ht hr hne
    unfold addDataPhase
    rw [hr, req_some]
    simp [Nat.pos_of_ne_zero hne, ht]
  · intro d s r ht h
    unfold addDataPhase req at h
    split at h
    · exact Except.noConfusion h
    · rename_i p hr
      obtain ⟨alen, s1⟩ := p
      dsimp only at h
      by_cases hpos : 0 < alen
      · rw [if_pos hpos, if_pos ht] at h
        exact Except.noConfusion h
      · rw [if_neg hpos] at h
        simp only [Except.ok.injEq] at h
        rw [hr, ← h]
        have hz : alen = 0 := by omega
        rw [hz]

theorem C2_rpmonly_invariants_witness :
    (dC.version = 3 ∧ dC.sequence_len = 16 ∧ 0 < dC.tgt_header_len) ∧
    addDataPhase (Deltarpm.init .RPMONLY) [0, 0, 0, 5] = .error .format :=
  ⟨C2_rpmonly_invariants.1 decodeCompModel 0 exC dC rfl,
   C2_rpmonly_invariants.2.1 (Deltarpm.init .RPMONLY) [0, 0, 0, 5] 5 [] rfl rfl
     (by decide)⟩

/-- C3 (confirmed).  On every successful parse the external-copy walk (first
member added sign-extended, second unsigned, in `uint64_t` arithmetic as the
code computes it) stays within `ext_data_len` after the signed step and is
non-zero and within `ext_data_len` after the unsigned step, at every pair;
and whenever the read phases succeed but the walk fails, `readdelta_rest`
returns FORMAT (the claim's example, `ext_data_len = 10` with the single
pair (0, 11), is the witness). -/
theorem C3_ext_copies_bounds :
    (∀ (dc : Nat → Option (Nat × Nat)) (comp : Nat) (d0 : Deltarpm) (s : List Nat)
        (d : Deltarpm),
        readdelta_rest dc comp d0 s = .ok d →
        ∀ p ∈ extWalkStates 0 d.ext_copies,
          p.1 ≤ d.ext_data_len ∧ p.2 ≠ 0 ∧ p.2 ≤ d.ext_data_len) ∧
    (∀ (dc : Nat → Option (Nat × Nat)) (comp : Nat) (d0 : Deltarpm) (s : List Nat)
        (d : Deltarpm) (s2 : List Nat),
        parseBody dc { d0 with comp := comp } s = .ok (d, s2) →
        checkExtCopies d.ext_data_len 0 d.ext_copies = false →
        readdelta_rest dc comp d0 s = .error .format) := by
  constructor
  · intro dc comp d0 s d h p hp
    obtain ⟨_, _, hext⟩ := readdelta_rest_ok_inv dc comp d0 s d h
    exact checkExtCopies_walk _ _ _ hext p hp
  · intro dc comp d0 s d s2 hp hf
    exact readdelta_rest_check_fail dc comp d0 s d s2 hp (Or.inr hf)

theorem C3_ext_copies_bounds_witness :
    readdelta_rest decodeCompModel 0 (Deltarpm.init .STANDARD) exB = .error .format :=
  C3_ext_copies_bounds.2 decodeCompModel 0 (Deltarpm.init .STANDARD) exB dB [] rfl rfl

/-- C4 (confirmed).  On every successful parse the internal-copy walk (the
`uint64_t` running sum of the second member of each pair) never exceeds
`int_data_len`; and whenever the read phases succeed but the walk fails,
`readdelta_rest` returns FORMAT. -/
theorem C4_int_copies_bounds :
    (∀ (dc : Nat → Option (Nat × Nat)) (comp : Nat) (d0 : Deltarpm) (s : List Nat)
        (d : Deltarpm),
        readdelta_rest dc comp d0 s = .ok d →
        ∀ o ∈ intWalkSums 0 d.int_copies, o ≤ d.int_data_len) ∧
    (∀ (dc : Nat → Option (Nat × Nat)) (comp : Nat) (d0 : Deltarpm) (s : List Nat)
        (d : Deltarpm) (s2 : List Nat),
        parseBody dc { d0 with comp := comp } s = .ok (d, s2) →
        checkIntCopies d.int_data_len 0 d.int_copies = false →
        readdelta_rest dc comp d0 s = .error .format) := by
  constructor
  · intro dc comp d0 s d h o ho
    obtain ⟨_, hint, _⟩ := readdelta_rest_ok_inv dc comp d0 s d h
    exact checkIntCopies_walk _ _ _ hint o ho
  · intro dc comp d0 s d s2 hp hf
    exact readdelta_rest_check_fail dc comp d0 s d s2 hp (Or.inl hf)

theorem C4_int_copies_bounds_witness :
    readdelta_rest decodeCompModel 0 (Deltarpm.init .STANDARD) exD = .error .format :=
  C4_int_copies_bounds.2 decodeCompModel 0 (Deltarpm.init .STANDARD) exD dD [] rfl rfl

/-- C5 (confirmed).  The sign-magnitude decoder leaves a 32-bit word with a
clear high bit unchanged, and maps a word with the high bit set to the
two's-complement representation of the negation of its low 31 bits
(`v &&& 0x7FFFFFFF`), i.e. to `(2^32 - (v &&& 0x7FFFFFFF)) mod 2^32`.  The
parser applies it to the odd-indexed offadj slots (`offadjPhase`) and the
even-indexed external-copy slots (`extCopiesPhase`).  The witness is the
claim's instance: wire word 0x80000005 is stored as two's-complement -5. -/
theorem C5_sign_magnitude :
    ∀ v : Nat, v < U32 →
      (v < 2147483648 → decodeSignMagnitude v = v) ∧
      (2147483648 ≤ v →
        decodeSignMagnitude v = (U32 - (v &&& 2147483647)) % U32) := by
  intro v hv
  have hv32 : v < 4294967296 := hv
  constructor
  · intro hlow
    unfold decodeSignMagnitude
    simp [and_msb_eq_zero hlow]
  · intro hhigh
    unfold decodeSignMagnitude
    rw [if_pos (and_msb_ne_zero hhigh hv32), xor_msb hhigh hv32, and_low31]

theorem C5_sign_magnitude_witness :
    decodeSignMagnitude 2147483653 = (U32 - (2147483653 &&& 2147483647)) % U32 ∧
    decodeSignMagnitude 2147483653 = U32 - 5 :=
  ⟨(C5_sign_magnitude 2147483653 (by decide)).2 (by decide), by decide⟩

/-- C6 (corrected).  For a declared pair count c with 0 < c < 2^31 the table
read performs exactly 2c consecutive 32-bit reads in two passes: the first c
words fill the even slots (first members) and the next c words fill the odd
slots (second members) — column-major, not row-major.  But the claim's
'exactly 2*c reads' fails for c ≥ 2^31, where the `uint32_t` size
computation wraps: at c = 2^31 the parser performs zero reads
(`C6_counterexample`). -/
theorem C6_two_pass_reads :
    ∀ (decF decS : Nat → Nat) (c : Nat) (s ws s' : List Nat),
      0 < c → c < 2147483648 →
      readNWords (2 * c) s = some (ws, s') →
      readTable decF decS c s =
        some (interleave ((ws.take c).map decF) ((ws.drop c).map decS), s') := by
  intro decF decS c s ws s' hpos hlt h
  have hU : U32 = 4294967296 := rfl
  have hsize : c * 2 % U32 = 2 * c := by
    rw [Nat.mod_eq_of_lt (by omega)]
    omega
  have hhalf : c * 2 % U32 / 2 = c := by omega
  have hres := readTable_of_readNWords decF decS c s ws s' (by rw [hsize]; exact h)
  rw [hhalf] at hres
  exact hres

/-- C6 counterexample.  At declared pair count c = 2^31 (which is > 0) the
table read succeeds on the empty stream, performing zero 32-bit reads and
producing an empty table, although the claim demands exactly 2·c = 2^32 > 0
reads. -/
theorem C6_counterexample :
    readTable (fun w => w) (fun w => w) 2147483648 [] = some ([], []) ∧
    2 * 2147483648 ≠ 0 := ⟨rfl, by decide⟩

theorem C6_two_pass_reads_witness :
    readTable (fun w => w) (fun w => w) 1 [0, 0, 0, 7, 0, 0, 0, 9] = some ([7, 9], []) :=
  C6_two_pass_reads (fun w => w) (fun w => w) 1 [0, 0, 0, 7, 0, 0, 0, 9] [7, 9] []
    (by decide) (by decide) rfl

/-- C8 (corrected).  The projection copies the scalar fields unchanged,
copies the numeric tables verbatim, and renders the binary fields as
NUL-terminated hex strings of 2n characters for an n-byte source
(`tgt_comp_param` only when its length is non-zero; a zero-length parameter
block stays empty, lines 511-512, 530-531).  But the three count fields are
reported as `count * 2` in `uint32_t` arithmetic, not as the mathematical
element count times two: a successfully parsed record with a table count of
2^31 is projected to a size of 0, not 2^32 (`C8_counterexample`). -/
theorem C8_projection :
    ∀ src : Deltarpm,
      (deltarpm_to_drpm src).version = src.version ∧
      (deltarpm_to_drpm src).type = src.type ∧
      (deltarpm_to_drpm src).comp = src.comp ∧
      (deltarpm_to_drpm src).tgt_size = src.tgt_size ∧
      (deltarpm_to_drpm src).tgt_comp = src.tgt_comp ∧
      (deltarpm_to_drpm src).tgt_header_len = src.tgt_header_len ∧
      (deltarpm_to_drpm src).payload_fmt_off = src.payload_fmt_off ∧
      (deltarpm_to_drpm src).ext_data_len = src.ext_data_len ∧
      (deltarpm_to_drpm src).int_data_len = src.int_data_len ∧
      (deltarpm_to_drpm src).offadj_elems_size = src.offadj_elems_count * 2 % U32 ∧
      (deltarpm_to_drpm src).int_copies_size = src.int_copies_count * 2 % U32 ∧
      (deltarpm_to_drpm src).ext_copies_size = src.ext_copies_count * 2 % U32 ∧
      (deltarpm_to_drpm src).offadj_elems = src.offadj_elems ∧
      (deltarpm_to_drpm src).int_copies = src.int_copies ∧
      (deltarpm_to_drpm src).ext_copies = src.ext_copies ∧
      (deltarpm_to_drpm src).sequence = dump_hex src.sequence ∧
      (deltarpm_to_drpm src).sequence.length = 2 * src.sequence.length + 1 ∧
      (deltarpm_to_drpm src).sequence.getLast? = some 0 ∧
      (deltarpm_to_drpm src).tgt_md5 = dump_hex src.tgt_md5 ∧
      (deltarpm_to_drpm src).tgt_leadsig = dump_hex src.tgt_leadsig ∧
      (0 < src.tgt_comp_param_len →
        (deltarpm_to_drpm src).tgt_comp_param = dump_hex src.tgt_comp_param ∧
        (deltarpm_to_drpm src).tgt_comp_param.length =
          2 * src.tgt_comp_param.length + 1) := by
  intro src
  refine ⟨rfl, rfl, rfl, rfl, rfl, rfl, rfl, rfl, rfl, rfl, rfl, rfl, rfl, rfl, rfl,
    rfl, dump_hex_length _, dump_hex_last _, rfl, rfl, fun hp => ⟨?_, ?_⟩⟩
  · simp [deltarpm_to_drpm, hp]
  · simp [deltarpm_to_drpm, hp, dump_hex_length]

/-- C8 counterexample.  `exE` parses successfully into a record whose offadj
element count is 2^31; the projection reports the offadj size field as 0,
which is not the element count times two (2^32). -/
theorem C8_counterexample :
    (readdelta_rest decodeCompModel 0 (Deltarpm.init .STANDARD) exE).map
      (fun d => ((deltarpm_to_drpm d).offadj_elems_size, d.offadj_elems_count)) =
      .ok (0, 2147483648) ∧ (0 : Nat) ≠ 2147483648 * 2 := ⟨rfl, by decide⟩

theorem C8_projection_witness :
    (deltarpm_to_drpm srcW).tgt_comp_param = dump_hex srcW.tgt_comp_param ∧
    (deltarpm_to_drpm srcW).tgt_comp_param.length = 2 * srcW.tgt_comp_param.length + 1 := by
  obtain ⟨-, -, -, -, -, -, -, -, -, -, -, -, -, -, -, -, -, -, -, -, himpl⟩ :=
    C8_projection srcW
  exact himpl (by decide)

/-- C9 (confirmed).  A declared sequence length below 16 is FORMAT: at the
sequence phase itself, and propagated to a FORMAT result of the whole parse
once the earlier phases succeed (witnessed at length 15).  A length of 16 or
more passes this check for a standard delta: the phase proceeds exactly to
reading the declared bytes. -/
theorem C9_sequence_length :
    (∀ (d : Deltarpm) (s : List Nat) (len : Nat) (s1 : List Nat),
        readBe32 s = some (len, s1) → len < 16 → sequencePhase d s = .error .format) ∧
    (∀ (d : Deltarpm) (s : List Nat) (len : Nat) (s1 : List Nat),
        d.type = .STANDARD → readBe32 s = some (len, s1) → 16 ≤ len →
        sequencePhase d s =
          req (readBytes len s1) fun bs2 =>
            .ok ({ d with sequence_len := len, sequence := bs2.1 }, bs2.2)) ∧
    (∀ (dc : Nat → Option (Nat × Nat)) (comp : Nat) (d0 : Deltarpm) (s : List Nat)
        (d1 : Deltarpm) (s1 : List Nat) (d2 : Deltarpm) (s2 : List Nat) (len : Nat)
        (s3 : List Nat),
        versionPhase { d0 with comp := comp } s = .ok (d1, s1) →
        srcNevrPhase d1 s1 = .ok (d2, s2) →
        readBe32 s2 = some (len, s3) → len < 16 →
        readdelta_rest dc comp d0 s = .error .format) := by
  refine ⟨?_, ?_, ?_⟩
  · intro d s len s1 hr hlen
    exact sequencePhase_short hr hlen
  · intro d s len s1 ht hr hge
    unfold sequencePhase
    rw [hr, req_some]
    dsimp only
    have hcond : ¬(len < MD5_DIGEST_LENGTH ∨ (len ≠ MD5_DIGEST_LENGTH ∧
        ({ d with sequence_len := len } : Deltarpm).type = .RPMONLY)) := by
      simp only [MD5_DIGEST_LENGTH]
      push_neg
      refine ⟨by omega, fun _ => ?_⟩
      simp [ht]
    rw [if_neg hcond]
  · intro dc comp d0 s d1 s1 d2 s2 len s3 hv hn hr hlen
    apply readdelta_rest_error_of_parseBody
    unfold parseBody
    rw [hv, pstep_ok]
    rw [hn, pstep_ok]
    rw [sequencePhase_short hr hlen, pstep_error]

theorem C9_sequence_length_witness :
    readdelta_rest decodeCompModel 0 (Deltarpm.init .STANDARD) exSeq15 = .error .format :=
  C9_sequence_length.2.2 decodeCompModel 0 (Deltarpm.init .STANDARD) exSeq15
    { Deltarpm.init .STANDARD with comp := 0, version := 1 }
    [0, 0, 0, 0, 0, 0, 0, 15]
    { Deltarpm.init .STANDARD with comp := 0, version := 1 }
    [0, 0, 0, 15] 15 [] rfl rfl rfl (by decide)

/-- C10 (confirmed).  The number of 32-bit table words the parser allocates
and reads is `count * 2` in `uint32_t` arithmetic, i.e. `(2c) mod 2^32`:
whenever that many words are available the table read succeeds, consumes
exactly that many words, and produces a table of that length, while the
recorded count field keeps the declared value — so at c = 2^31 zero words
are read and the count field of the record stays 2^31, not matching the
number of words read. -/
theorem C10_count_mod32 :
    (∀ (decF decS : Nat → Nat) (c : Nat) (s ws s' : List Nat),
        readNWords (c * 2 % U32) s = some (ws, s') →
        readTable decF decS c s =
          some (interleave ((ws.take (c * 2 % U32 / 2)).map decF)
            ((ws.drop (c * 2 % U32 / 2)).map decS), s') ∧
        (interleave ((ws.take (c * 2 % U32 / 2)).map decF)
          ((ws.drop (c * 2 % U32 / 2)).map decS)).length = c * 2 % U32) ∧
    (∀ (d : Deltarpm) (s : List Nat) (r : Deltarpm × List Nat),
        d.int_copies = [] → intCopiesPhase d s = .ok r →
        r.1.int_copies_count = d.int_copies_count ∧
        r.1.int_copies.length = d.int_copies_count * 2 % U32) := by
  constructor
  · intro decF decS c s ws s' h
    have heq := readTable_of_readNWords decF decS c s ws s' h
    exact ⟨heq, readTable_length decF decS c s _ s' heq⟩
  · intro d s r hnil h
    unfold intCopiesPhase req at h
    split at h
    · rename_i hpos
      split at h
      · exact Except.noConfusion h
      · rename_i w heq
        obtain ⟨tbl, s1⟩ := w
        dsimp only at h
        simp only [Except.ok.injEq] at h
        rw [← h]
        exact ⟨rfl, readTable_length _ _ _ _ _ _ heq⟩
    · rename_i hnpos
      simp only [Except.ok.injEq] at h
      rw [← h]
      refine ⟨rfl, ?_⟩
      rw [hnil]
      simp only [List.length_nil]
      omega

theorem C10_count_mod32_witness :
    (readTable (fun w => w) (fun w => w) 2147483648 [] = some ([], []) ∧
      ([] : List Nat).length = 2147483648 * 2 % U32) ∧
    ((dCnt, ([] : List Nat)).1.int_copies_count = dCnt.int_copies_count ∧
      (dCnt, ([] : List Nat)).1.int_copies.length = dCnt.int_copies_count * 2 % U32) :=
  ⟨C10_count_mod32.1 (fun w => w) (fun w => w) 2147483648 [] [] [] rfl,
   C10_count_mod32.2 dCnt [] (dCnt, []) rfl rfl⟩

